import Mathlib

/-!
Shallow embedding of a small C networking repository: a select-based
multiplexing TCP server with a fixed table of client slots, a one-shot
hello server, and the matching client.  The definitions are translated
from the C sources; the theorems settle the specification's claims
about them.  Bytes are modelled as natural numbers below 256, file
descriptors as integers with -1 the free-slot sentinel, and the
operating system (select readiness, accept results, read results) as
explicit oracle inputs to each loop iteration.
-/

namespace SelectServer

/-- capacity of the client table (`#define MAX_CLIENTS 256`). -/
def MAX_CLIENTS : Nat := 256

/-- per-slot buffer size (`#define BUFF_SIZE 4096`, and `char buffer[4096]`). -/
def BUFF_SIZE : Nat := 4096

/-- listening port of the select server (`#define PORT 8080`). -/
def PORT : Nat := 8080

/-- lifecycle states of a slot (`state_e` in the source). -/
inductive state_e
  | STATE_NEW
  | STATE_CONNECTED
  | STATE_DISCONNECTED
deriving DecidableEq, Repr

/-- one slot of the connection table (`clientstate_t`): a descriptor
(-1 meaning free), a lifecycle state and a fixed-size byte buffer. -/
structure clientstate_t where
  fd : Int
  state : state_e
  buffer : List Nat
deriving DecidableEq, Repr

/-- a freshly initialised slot, as `init_clients` produces it:
fd = -1, state = STATE_NEW, buffer zeroed by memset. -/
def initSlot : clientstate_t :=
  { fd := -1, state := .STATE_NEW, buffer := List.replicate BUFF_SIZE 0 }

/-- the table after `init_clients()`: MAX_CLIENTS fresh slots. -/
def init_clients : List clientstate_t :=
  List.replicate MAX_CLIENTS initSlot

/-- `find_free_slot()`: index of the first slot whose fd is -1, else -1.
The C original scans indices 0 .. MAX_CLIENTS-1 in order and returns the
first hit; this recursion returns the same first-fit index. -/
def find_free_slot : List clientstate_t → Int
  | [] => -1
  | c :: rest =>
    if c.fd = -1 then 0
    else
      let r := find_free_slot rest
      if r = -1 then -1 else r + 1

/-- number of occupied slots (fd differs from the -1 sentinel). -/
def occupiedCount (cs : List clientstate_t) : Nat :=
  cs.countP (fun c => decide (c.fd ≠ -1))

/-- replace the element at one index, leaving the rest of the list as it
is (used for the in-place slot updates of the C loop). -/
def modifyAt (i : Nat) (f : clientstate_t → clientstate_t) :
    List clientstate_t → List clientstate_t
  | [] => []
  | c :: cs =>
    match i with
    | 0 => f c :: cs
    | j + 1 => c :: modifyAt j f cs

/-- FD_ZERO: clears the descriptor set, discarding whatever it held. -/
def FD_ZERO (s : Finset Int) : Finset Int :=
  match s with
  | _ => ∅

/-- FD_SET: adds one descriptor to the set. -/
def FD_SET (d : Int) (s : Finset Int) : Finset Int := insert d s

/-- the readiness query set built at the top of each loop iteration:
FD_ZERO on the set carried over from the previous iteration, FD_SET of
the listening descriptor, then FD_SET of every slot whose fd is not -1
(the for-loop over clientStates). -/
def buildReadFds (prev : Finset Int) (listen_fd : Int)
    (cs : List clientstate_t) : Finset Int :=
  let read_fds := FD_ZERO prev
  let read_fds := FD_SET listen_fd read_fds
  cs.foldl (fun acc c => if c.fd ≠ -1 then FD_SET c.fd acc else acc) read_fds

/-- observable events of one loop iteration, in program order. -/
inductive Event
  | accept_called
  | new_conn (fd : Int)
  | server_full_close (fd : Int)
  | slot_stored (i : Nat) (fd : Int)
  | read_call (i : Nat) (fd : Int)
  | client_closed (i : Nat) (fd : Int)
  | data_handled (i : Nat) (bytes : List Nat)
deriving DecidableEq, Repr

/-- what printf with a string conversion prints of the slot buffer: the
bytes up to (excluding) the first zero byte. -/
def cString (buf : List Nat) : List Nat :=
  buf.takeWhile (fun b => decide (b ≠ 0))

/-- body of the client dispatch for a ready slot i: one read into the
slot's own buffer.  A result ≤ 0 closes the descriptor and frees the
slot (fd := -1, state := STATE_DISCONNECTED, buffer untouched); a
positive result overwrites the first bytes of the buffer with the
received data (the rest of the buffer keeps its old contents — read
writes only the bytes it returns) and the handler prints the buffer as
a C string.  r is the oracle's read outcome: the return value of read
and the bytes deposited, capped at BUFF_SIZE as read is bounded by
sizeof(buffer). -/
def dispatchSlot (i : Nat) (c : clientstate_t) (r : Int × List Nat) :
    clientstate_t × List Event :=
  if r.1 ≤ 0 then
    ({ fd := -1, state := .STATE_DISCONNECTED, buffer := c.buffer },
     [.read_call i c.fd, .client_closed i c.fd])
  else
    let d := r.2.take BUFF_SIZE
    let newbuf := d ++ c.buffer.drop d.length
    ({ c with buffer := newbuf },
     [.read_call i c.fd, .data_handled i (cString newbuf)])

/-- one pass of the client for-loop over a single slot: dispatch only
when the slot is non-empty and its descriptor is in read_fds. -/
def stepSlot (read_fds : Finset Int) (readData : Int → Int × List Nat)
    (i : Nat) (c : clientstate_t) : clientstate_t × List Event :=
  if c.fd ≠ -1 ∧ c.fd ∈ read_fds then dispatchSlot i c (readData c.fd)
  else (c, [])

/-- the client dispatch for-loop, visiting slots in ascending index
order starting at index i. -/
def clientDispatch (read_fds : Finset Int) (readData : Int → Int × List Nat) :
    Nat → List clientstate_t → List clientstate_t × List Event
  | _, [] => ([], [])
  | i, c :: cs =>
    let r := stepSlot read_fds readData i c
    let rest := clientDispatch read_fds readData (i + 1) cs
    (r.1 :: rest.1, r.2 ++ rest.2)

/-- the listener dispatch after a successful accept: find a free slot;
if none, close the new connection and leave the table alone; otherwise
store the connection in the first free slot (fd and state updated,
buffer untouched). -/
def listenerDispatch (cs : List clientstate_t) (conn_fd : Int) :
    List clientstate_t × List Event :=
  let freeSlot := find_free_slot cs
  if freeSlot = -1 then
    (cs, [.new_conn conn_fd, .server_full_close conn_fd])
  else
    (modifyAt freeSlot.toNat
       (fun c => { c with fd := conn_fd, state := .STATE_CONNECTED }) cs,
     [.new_conn conn_fd, .slot_stored freeSlot.toNat conn_fd])

/-- loop-carried server state: the listening descriptor and the table. -/
structure ServerState where
  listen_fd : Int
  clientStates : List clientstate_t

/-- oracle inputs of one iteration: the descriptors the OS reports
ready (select intersects them with the query set), the result of
accept (none = failure), and per-descriptor read outcomes. -/
structure IterInput where
  ready : Finset Int
  acceptResult : Option Int
  readData : Int → Int × List Nat

/-- one iteration of the while(1) loop: rebuild the query set, let
select report the ready subset, dispatch the listener first (a failed
accept hits the continue statement, skipping the whole client loop of
this iteration), then run the client dispatch loop. -/
def iterate (st : ServerState) (prev : Finset Int) (inp : IterInput) :
    ServerState × Finset Int × List Event :=
  let query := buildReadFds prev st.listen_fd st.clientStates
  let read_fds := query ∩ inp.ready
  if st.listen_fd ∈ read_fds then
    match inp.acceptResult with
    | none => (st, read_fds, [.accept_called])
    | some conn_fd =>
      let ld := listenerDispatch st.clientStates conn_fd
      let cd := clientDispatch read_fds inp.readData 0 ld.1
      ({ st with clientStates := cd.1 }, read_fds, .accept_called :: (ld.2 ++ cd.2))
  else
    let cd := clientDispatch read_fds inp.readData 0 st.clientStates
    ({ st with clientStates := cd.1 }, read_fds, cd.2)

/-- the multiplexing loop over a finite schedule of oracle inputs. -/
def runLoop : ServerState → Finset Int → List IterInput → ServerState × Finset Int
  | st, prev, [] => (st, prev)
  | st, prev, inp :: rest =>
    let r := iterate st prev inp
    runLoop r.1 r.2.1 rest

/-- server state right after init_clients and a successful setup. -/
def initialState (listen_fd : Int) : ServerState :=
  { listen_fd := listen_fd, clientStates := init_clients }

/-- recogniser for a read dispatched to slot i. -/
def isReadCallAt (i : Nat) : Event → Bool
  | .read_call j _ => decide (j = i)
  | _ => false

/-- the slot index of a read event, none for every other event. -/
def readIdx : Event → Option Nat
  | .read_call i _ => some i
  | _ => none

/-- recogniser for the accept call event. -/
def isAcceptCall : Event → Bool
  | .accept_called => true
  | _ => false

/-- EXIT_FAILURE as used by the select server's fatal paths. -/
def EXIT_FAILURE : Nat := 1

/-- outcome of a server setup sequence: a fatal path with the perror
tag and the process exit status, or entry into the main loop. -/
inductive SetupOutcome
  | fatal (perrorMsg : String) (exitStatus : Nat)
  | enterLoop (fd : Int)
deriving DecidableEq, Repr

/-- oracle results of the three setup system calls. -/
structure SetupOracle where
  socketResult : Int
  bindResult : Int
  listenResult : Int
deriving DecidableEq, Repr

/-- setup sequence of the select server's main: socket, bind and
listen each perror and exit(EXIT_FAILURE) on a -1 result; otherwise
the process enters the while(1) loop. -/
def selectSetup (o : SetupOracle) : SetupOutcome :=
  if o.socketResult = -1 then .fatal "socket" EXIT_FAILURE
  else if o.bindResult = -1 then .fatal "Bind" EXIT_FAILURE
  else if o.listenResult = -1 then .fatal "listen" EXIT_FAILURE
  else .enterLoop o.socketResult

end SelectServer

namespace Proto

/-- message type tag PROTO_HELLO of the hello protocol. -/
def PROTO_HELLO : Nat := 0

/-- the four bytes htonl places in memory: big-endian order. -/
def htonl_bytes (n : Nat) : List Nat :=
  [n / 2 ^ 24 % 256, n / 2 ^ 16 % 256, n / 2 ^ 8 % 256, n % 256]

/-- the two bytes htons places in memory: big-endian order. -/
def htons_bytes (n : Nat) : List Nat :=
  [n / 2 ^ 8 % 256, n % 256]

/-- host value ntohl yields from four bytes of the buffer (bytes past
the end read as the zero fill of the buffer). -/
def ntohl_at (buf : List Nat) (off : Nat) : Nat :=
  buf.getD off 0 * 2 ^ 24 + buf.getD (off + 1) 0 * 2 ^ 16 +
    buf.getD (off + 2) 0 * 2 ^ 8 + buf.getD (off + 3) 0

/-- host value ntohs yields from two bytes of the buffer. -/
def ntohs_at (buf : List Nat) (off : Nat) : Nat :=
  buf.getD off 0 * 2 ^ 8 + buf.getD (off + 1) 0

/-- store a run of bytes into a buffer at a byte offset, leaving the
rest of the buffer as it was. -/
def writeAt (buf : List Nat) (off : Nat) (bytes : List Nat) : List Nat :=
  buf.take off ++ bytes ++ buf.drop (off + bytes.length)

/-- sizeof(proto_hdr_t) under the LP64 ABI the repository targets: a
4-byte enum field, a 2-byte unsigned short, and 2 bytes of tail
padding since the struct is aligned to 4 — so 8 bytes, and the payload
int at &hdr[1] sits at byte offset 8. -/
def sizeof_proto_hdr : Nat := 8

end Proto

namespace HelloServer

/-- bytes written to the connection by handle_client of the hello
server: buf is a zeroed char[4096]; hdr->type := htonl(PROTO_HELLO) at
offset 0; hdr->len := htons(sizeof(int)) at offset 4; *data := htonl(1)
at offset sizeof(proto_hdr_t); write sends
sizeof(proto_hdr_t) + real_len = 12 bytes from the start of buf. -/
def handle_client_out : List Nat :=
  let buf := List.replicate 4096 0
  let buf := Proto.writeAt buf 0 (Proto.htonl_bytes Proto.PROTO_HELLO)
  let buf := Proto.writeAt buf 4 (Proto.htons_bytes 4)
  let buf := Proto.writeAt buf Proto.sizeof_proto_hdr (Proto.htonl_bytes 1)
  buf.take (Proto.sizeof_proto_hdr + 4)

/-- setup sequence of the hello server's main: socket and bind
failures perror and return -1 from main (process exit status 255); the
listen result is tested but the if body is empty, so a listen failure
is ignored and the accept loop is entered regardless. -/
def helloSetup (o : SelectServer.SetupOracle) : SelectServer.SetupOutcome :=
  if o.socketResult = -1 then .fatal "socket" 255
  else if o.bindResult = -1 then .fatal "bind" 255
  else .enterLoop o.socketResult

end HelloServer

namespace HelloClient

/-- what the client logs for one handshake. -/
inductive HandshakeLog
  | protocolMismatch
  | versionMismatch (v : Nat)
  | connectedV1
deriving DecidableEq, Repr

/-- the client's receive buffer after read: char buf[4096] zeroed,
with up to sizeof(proto_hdr_t) + sizeof(int) = 12 received bytes
deposited at the start. -/
def recvBuf (input : List Nat) : List Nat :=
  Proto.writeAt (List.replicate 4096 0) 0 (input.take 12)

/-- the header fields and payload the client decodes: ntohl of the
type at offset 0, ntohs of the length at offset 4, ntohl of the
payload int at offset sizeof(proto_hdr_t). -/
def decode (input : List Nat) : Nat × Nat × Nat :=
  (Proto.ntohl_at (recvBuf input) 0,
   Proto.ntohs_at (recvBuf input) 4,
   Proto.ntohl_at (recvBuf input) Proto.sizeof_proto_hdr)

/-- handle_client of the client: one read of up to 12 bytes, decode,
reject a wrong type then a wrong version, else log success.  The
function contains no write call, so the bytes it sends back are []. -/
def handle_client (input : List Nat) : HandshakeLog × List Nat :=
  let d := decode input
  if d.1 ≠ Proto.PROTO_HELLO then (.protocolMismatch, [])
  else if d.2.2 ≠ 1 then (.versionMismatch d.2.2, [])
  else (.connectedV1, [])

/-- observable result of the client's main. -/
structure ClientResult where
  exitStatus : Nat
  perrorMsg : Option String
  usageShown : Bool
  closedFd : Bool
  ranHandshake : Bool
deriving DecidableEq, Repr

/-- oracle results of the client's two setup system calls. -/
structure ClientOracle where
  socketResult : Int
  connectResult : Int
deriving DecidableEq, Repr

/-- main of the client: a missing address argument prints usage and
returns -1 (process exit status 255); a socket failure perrors and
returns -1; a connect failure perrors, closes the socket and returns
0; otherwise the handshake runs, the socket is closed and main falls
off its end, so the process exits 0. -/
def client_main (argc : Nat) (o : ClientOracle) : ClientResult :=
  if argc < 2 then
    { exitStatus := 255, perrorMsg := none, usageShown := true,
      closedFd := false, ranHandshake := false }
  else if o.socketResult = -1 then
    { exitStatus := 255, perrorMsg := some "socket", usageShown := false,
      closedFd := false, ranHandshake := false }
  else if o.connectResult = -1 then
    { exitStatus := 0, perrorMsg := some "connect", usageShown := false,
      closedFd := true, ranHandshake := false }
  else
    { exitStatus := 0, perrorMsg := none, usageShown := false,
      closedFd := true, ranHandshake := true }

end HelloClient

namespace SelectServer

theorem modifyAt_length (i : Nat) (f : clientstate_t → clientstate_t)
    (cs : List clientstate_t) : (modifyAt i f cs).length = cs.length := by
  induction cs generalizing i with
  | nil => simp [modifyAt]
  | cons c cs ih =>
    cases i with
    | zero => simp [modifyAt]
    | succ j => simp [modifyAt, ih]

theorem modifyAt_get? (i : Nat) (f : clientstate_t → clientstate_t)
    (cs : List clientstate_t) (j : Nat) :
    (modifyAt i f cs).get? j = if i = j then (cs.get? j).map f else cs.get? j := by
  induction cs generalizing i j with
  | nil => cases i <;> cases j <;> simp [modifyAt]
  | cons c cs ih =>
    cases i with
    | zero => cases j <;> simp [modifyAt]
    | succ i' =>
      cases j with
      | zero => simp [modifyAt]
      | succ j' => simpa [modifyAt] using ih i' j'

/-- find_free_slot never returns anything below -1. -/
theorem find_free_slot_ge (cs : List clientstate_t) :
    -1 ≤ find_free_slot cs := by
  induction cs with
  | nil => simp [find_free_slot]
  | cons c cs ih =>
    by_cases hc : c.fd = -1
    · simp [find_free_slot, hc]
    · by_cases hr : find_free_slot cs = -1
      · simp [find_free_slot, hc, hr]
      · simp only [find_free_slot, hc, if_false, hr, if_neg hr]
        omega

/-- find_free_slot returns -1 exactly when no slot is free. -/
theorem find_free_slot_eq_neg_one_iff (cs : List clientstate_t) :
    find_free_slot cs = -1 ↔ ∀ c ∈ cs, c.fd ≠ -1 := by
  induction cs with
  | nil => simp [find_free_slot]
  | cons c cs ih =>
    by_cases hc : c.fd = -1
    · simp [find_free_slot, hc]
    · by_cases hr : find_free_slot cs = -1
      · constructor
        · intro _ x hx
          rcases List.mem_cons.mp hx with hx | hx
          · rw [hx]; exact hc
          · exact ih.mp hr x hx
        · intro _
          simp [find_free_slot, hc, hr]
      · have hge := find_free_slot_ge cs
        have hne : ¬ (find_free_slot cs + 1 = -1) := by omega
        simp only [find_free_slot, hc, if_false, hr, if_neg hr, List.mem_cons]
        constructor
        · intro h
          exact absurd h hne
        · intro h
          exact absurd (ih.mpr (fun x hx => h x (Or.inr hx))) hr

theorem mem_foldl_fdset (cs : List clientstate_t) (acc : Finset Int) (d : Int) :
    d ∈ cs.foldl (fun a c => if c.fd ≠ -1 then FD_SET c.fd a else a) acc ↔
      d ∈ acc ∨ ∃ c ∈ cs, c.fd ≠ -1 ∧ c.fd = d := by
  induction cs generalizing acc with
  | nil => simp
  | cons c cs ih =>
    simp only [List.foldl_cons]
    rw [ih]
    by_cases hc : c.fd = -1
    · simp only [hc, ne_eq, not_true_eq_false, if_false, List.mem_cons]
      constructor
      · intro h
        rcases h with h | ⟨x, hx, hne, hd⟩
        · exact Or.inl h
        · exact Or.inr ⟨x, Or.inr hx, hne, hd⟩
      · intro h
        rcases h with h | ⟨x, hx, hne, hd⟩
        · exact Or.inl h
        · rcases hx with hx | hx
          · rw [hx] at hne; exact absurd hc hne
          · exact Or.inr ⟨x, hx, hne, hd⟩
    · simp only [hc, ne_eq, not_false_eq_true, if_true, FD_SET, Finset.mem_insert,
        List.mem_cons]
      constructor
      · intro h
        rcases h with (h | h) | ⟨x, hx, hne, hd⟩
        · exact Or.inr ⟨c, Or.inl rfl, hc, h.symm⟩
        · exact Or.inl h
        · exact Or.inr ⟨x, Or.inr hx, hne, hd⟩
      · intro h
        rcases h with h | ⟨x, hx, hne, hd⟩
        · exact Or.inl (Or.inr h)
        · rcases hx with hx | hx
          · rw [hx] at hd; exact Or.inl (Or.inl hd.symm)
          · exact Or.inr ⟨x, hx, hne, hd⟩

/-- membership in the rebuilt query set: exactly the listening
descriptor and the descriptors of the non-empty slots. -/
theorem mem_buildReadFds (prev : Finset Int) (lfd d : Int)
    (cs : List clientstate_t) :
    d ∈ buildReadFds prev lfd cs ↔
      d = lfd ∨ ∃ c ∈ cs, c.fd ≠ -1 ∧ c.fd = d := by
  unfold buildReadFds
  rw [mem_foldl_fdset]
  simp [FD_SET, FD_ZERO]

theorem dispatchSlot_readcount (i j : Nat) (c : clientstate_t)
    (r : Int × List Nat) :
    ((dispatchSlot j c r).2).countP (isReadCallAt i) =
      if j = i then 1 else 0 := by
  unfold dispatchSlot
  by_cases hj : j = i <;>
    split <;> simp [List.countP_cons, isReadCallAt, hj]

theorem stepSlot_readcount (rf : Finset Int) (rd : Int → Int × List Nat)
    (i j : Nat) (c : clientstate_t) :
    ((stepSlot rf rd j c).2).countP (isReadCallAt i) =
      if j = i ∧ c.fd ≠ -1 ∧ c.fd ∈ rf then 1 else 0 := by
  unfold stepSlot
  by_cases hd : c.fd ≠ -1 ∧ c.fd ∈ rf
  · rw [if_pos hd, dispatchSlot_readcount]
    by_cases hj : j = i
    · simp [hj, hd]
    · simp [hj]
  · rw [if_neg hd]
    simp [hd]

/-- each slot is visited exactly once by the dispatch for-loop: the
trace holds exactly one read for slot i when that slot is non-empty
and ready, and none otherwise. -/
theorem clientDispatch_readcount (rf : Finset Int)
    (rd : Int → Int × List Nat) (k : Nat) (cs : List clientstate_t) (i : Nat) :
    ((clientDispatch rf rd k cs).2).countP (isReadCallAt i) =
      if k ≤ i ∧ (cs.getD (i - k) initSlot).fd ≠ -1 ∧
          (cs.getD (i - k) initSlot).fd ∈ rf then 1 else 0 := by
  induction cs generalizing k with
  | nil => simp [clientDispatch, initSlot]
  | cons c cs ih =>
    show ((stepSlot rf rd k c).2 ++ (clientDispatch rf rd (k + 1) cs).2).countP _ = _
    rw [List.countP_append, stepSlot_readcount, ih]
    by_cases hik : k = i
    · subst hik
      have h1 : ¬ (k + 1 ≤ k) := by omega
      simp [h1, Nat.sub_self]
    · rcases Nat.lt_or_ge i k with hlt | hge
      · have h1 : ¬ (k ≤ i) := by omega
        have h2 : ¬ (k + 1 ≤ i) := by omega
        simp [hik, h1, h2]
      · have h1 : k ≤ i := by omega
        have h2 : i - k = (i - (k + 1)) + 1 := by omega
        have h3 : k + 1 ≤ i := by omega
        simp [hik, h1, h2, h3]

theorem clientDispatch_length (rf : Finset Int) (rd : Int → Int × List Nat)
    (k : Nat) (cs : List clientstate_t) :
    (clientDispatch rf rd k cs).1.length = cs.length := by
  induction cs generalizing k with
  | nil => rfl
  | cons c cs ih =>
    show ((stepSlot rf rd k c).1 :: (clientDispatch rf rd (k + 1) cs).1).length = _
    simp [ih]

/-- the result of the dispatch loop at position j depends only on the
slot that was at position j: reads into other slots never touch it. -/
theorem clientDispatch_get? (rf : Finset Int) (rd : Int → Int × List Nat)
    (k : Nat) (cs : List clientstate_t) (j : Nat) :
    (clientDispatch rf rd k cs).1.get? j =
      (cs.get? j).map (fun c => (stepSlot rf rd (k + j) c).1) := by
  induction cs generalizing k j with
  | nil => simp [clientDispatch]
  | cons c cs ih =>
    show ((stepSlot rf rd k c).1 :: (clientDispatch rf rd (k + 1) cs).1).get? j = _
    cases j with
    | zero => simp
    | succ j' =>
      have := ih (k + 1) j'
      simp only [List.get?_cons_succ, this, List.get?]
      have harith : k + 1 + j' = k + (j' + 1) := by omega
      rw [harith]

theorem listenerDispatch_length (cs : List clientstate_t) (conn_fd : Int) :
    (listenerDispatch cs conn_fd).1.length = cs.length := by
  unfold listenerDispatch
  by_cases h : find_free_slot cs = -1
  · simp [h]
  · simp [h, modifyAt_length]

theorem occupiedCount_le_length (cs : List clientstate_t) :
    occupiedCount cs ≤ cs.length :=
  List.countP_le_length _

theorem iterate_length (st : ServerState) (prev : Finset Int) (inp : IterInput) :
    (iterate st prev inp).1.clientStates.length = st.clientStates.length := by
  unfold iterate
  by_cases hl : st.listen_fd ∈ buildReadFds prev st.listen_fd st.clientStates ∩ inp.ready
  · cases hacc : inp.acceptResult with
    | none => simp [hl, hacc]
    | some conn_fd => simp [hl, hacc, clientDispatch_length, listenerDispatch_length]
  · simp [hl, clientDispatch_length]

theorem runLoop_length (st : ServerState) (prev : Finset Int)
    (inputs : List IterInput) :
    (runLoop st prev inputs).1.clientStates.length = st.clientStates.length := by
  induction inputs generalizing st prev with
  | nil => rfl
  | cons inp rest ih =>
    show (runLoop (iterate st prev inp).1 (iterate st prev inp).2.1 rest).1.clientStates.length = _
    rw [ih, iterate_length]

theorem iterate_accept_none (st : ServerState) (prev : Finset Int)
    (inp : IterInput)
    (hl : st.listen_fd ∈ buildReadFds prev st.listen_fd st.clientStates ∩ inp.ready)
    (hacc : inp.acceptResult = none) :
    iterate st prev inp =
      (st, buildReadFds prev st.listen_fd st.clientStates ∩ inp.ready,
       [Event.accept_called]) := by
  unfold iterate
  rw [hacc]
  simp [hl]

theorem iterate_accept_some (st : ServerState) (prev : Finset Int)
    (inp : IterInput) (conn_fd : Int)
    (hl : st.listen_fd ∈ buildReadFds prev st.listen_fd st.clientStates ∩ inp.ready)
    (hacc : inp.acceptResult = some conn_fd) :
    iterate st prev inp =
      ({ st with clientStates :=
           (clientDispatch (buildReadFds prev st.listen_fd st.clientStates ∩ inp.ready)
             inp.readData 0 (listenerDispatch st.clientStates conn_fd).1).1 },
       buildReadFds prev st.listen_fd st.clientStates ∩ inp.ready,
       Event.accept_called ::
         ((listenerDispatch st.clientStates conn_fd).2 ++
          (clientDispatch (buildReadFds prev st.listen_fd st.clientStates ∩ inp.ready)
            inp.readData 0 (listenerDispatch st.clientStates conn_fd).1).2)) := by
  unfold iterate
  rw [hacc]
  simp [hl]

theorem iterate_no_listener (st : ServerState) (prev : Finset Int)
    (inp : IterInput)
    (hl : st.listen_fd ∉ buildReadFds prev st.listen_fd st.clientStates ∩ inp.ready) :
    iterate st prev inp =
      ({ st with clientStates :=
           (clientDispatch (buildReadFds prev st.listen_fd st.clientStates ∩ inp.ready)
             inp.readData 0 st.clientStates).1 },
       buildReadFds prev st.listen_fd st.clientStates ∩ inp.ready,
       (clientDispatch (buildReadFds prev st.listen_fd st.clientStates ∩ inp.ready)
         inp.readData 0 st.clientStates).2) := by
  unfold iterate
  simp [hl]

/-- first-fit property of find_free_slot: when a free slot exists, the
returned index points at a free slot and every earlier slot is
occupied. -/
theorem find_free_slot_spec (cs : List clientstate_t)
    (h : find_free_slot cs ≠ -1) :
    0 ≤ find_free_slot cs ∧
    (∃ c, cs.get? (find_free_slot cs).toNat = some c ∧ c.fd = -1) ∧
    ∀ j, j < (find_free_slot cs).toNat →
      ∀ c', cs.get? j = some c' → c'.fd ≠ -1 := by
  induction cs with
  | nil => simp [find_free_slot] at h
  | cons c cs ih =>
    by_cases hc : c.fd = -1
    · refine ⟨by simp [find_free_slot, hc], ⟨c, ?_, hc⟩, ?_⟩
      · simp [find_free_slot, hc]
      · intro j hj
        simp [find_free_slot, hc] at hj
    · by_cases hr : find_free_slot cs = -1
      · exfalso
        exact h (by simp [find_free_slot, hc, hr])
      · have hge := find_free_slot_ge cs
        have hval : find_free_slot (c :: cs) = find_free_slot cs + 1 := by
          simp [find_free_slot, hc, hr]
        obtain ⟨h0, ⟨cfree, hget, hfree⟩, hbefore⟩ := ih hr
        have htn : (find_free_slot cs + 1).toNat = (find_free_slot cs).toNat + 1 := by
          omega
        refine ⟨by omega, ⟨cfree, ?_, hfree⟩, ?_⟩
        · rw [hval, htn]
          simpa using hget
        · intro j hj c' hget'
          rw [hval, htn] at hj
          cases j with
          | zero =>
            simp at hget'
            rw [← hget']
            exact hc
          | succ j' =>
            simp at hget'
            exact hbefore j' (by omega) c' (by simpa using hget')

/-- when the table is full, the new connection is closed and the table
is returned unchanged. -/
theorem listenerDispatch_full (cs : List clientstate_t) (conn_fd : Int)
    (h : find_free_slot cs = -1) :
    listenerDispatch cs conn_fd =
      (cs, [Event.new_conn conn_fd, Event.server_full_close conn_fd]) := by
  simp [listenerDispatch, h]

/-- when a free slot exists, the connection is stored there in place. -/
theorem listenerDispatch_free (cs : List clientstate_t) (conn_fd : Int)
    (h : find_free_slot cs ≠ -1) :
    listenerDispatch cs conn_fd =
      (modifyAt (find_free_slot cs).toNat
         (fun c => { c with fd := conn_fd, state := .STATE_CONNECTED }) cs,
       [Event.new_conn conn_fd,
        Event.slot_stored (find_free_slot cs).toNat conn_fd]) := by
  simp [listenerDispatch, h]

/-- the listener dispatch leaves every occupied slot untouched. -/
theorem listenerDispatch_get?_nonempty (cs : List clientstate_t)
    (conn_fd : Int) (j : Nat) (c : clientstate_t)
    (hget : cs.get? j = some c) (hfd : c.fd ≠ -1) :
    (listenerDispatch cs conn_fd).1.get? j = some c := by
  by_cases h : find_free_slot cs = -1
  · rw [listenerDispatch_full cs conn_fd h]
    exact hget
  · rw [listenerDispatch_free cs conn_fd h]
    simp only [modifyAt_get?]
    by_cases hij : (find_free_slot cs).toNat = j
    · exfalso
      obtain ⟨_, ⟨cfree, hgetf, hfree⟩, _⟩ := find_free_slot_spec cs h
      rw [hij, hget] at hgetf
      have : c = cfree := by injection hgetf
      rw [this] at hfd
      exact hfd hfree
    · rw [if_neg hij]
      exact hget

/-- no read is issued by the listener dispatch. -/
theorem listenerDispatch_readcount (cs : List clientstate_t) (conn_fd : Int)
    (i : Nat) :
    (listenerDispatch cs conn_fd).2.countP (isReadCallAt i) = 0 := by
  by_cases h : find_free_slot cs = -1
  · rw [listenerDispatch_full cs conn_fd h]
    simp [isReadCallAt]
  · rw [listenerDispatch_free cs conn_fd h]
    simp [isReadCallAt]

theorem stepSlot_acceptcount (rf : Finset Int) (rd : Int → Int × List Nat)
    (j : Nat) (c : clientstate_t) :
    ((stepSlot rf rd j c).2).countP isAcceptCall = 0 := by
  unfold stepSlot
  split
  · unfold dispatchSlot
    split <;> simp [isAcceptCall]
  · rfl

theorem clientDispatch_acceptcount (rf : Finset Int)
    (rd : Int → Int × List Nat) (k : Nat) (cs : List clientstate_t) :
    ((clientDispatch rf rd k cs).2).countP isAcceptCall = 0 := by
  induction cs generalizing k with
  | nil => rfl
  | cons c cs ih =>
    show ((stepSlot rf rd k c).2 ++ (clientDispatch rf rd (k + 1) cs).2).countP _ = 0
    rw [List.countP_append, stepSlot_acceptcount, ih]

theorem listenerDispatch_acceptcount (cs : List clientstate_t) (conn_fd : Int) :
    ((listenerDispatch cs conn_fd).2).countP isAcceptCall = 0 := by
  by_cases h : find_free_slot cs = -1
  · rw [listenerDispatch_full cs conn_fd h]
    simp [isAcceptCall]
  · rw [listenerDispatch_free cs conn_fd h]
    simp [isAcceptCall]

/-- every event of the block servicing slot j appears in the full
dispatch trace when slot j holds c. -/
theorem clientDispatch_mem_of_block (rf : Finset Int)
    (rd : Int → Int × List Nat) (k : Nat) (cs : List clientstate_t)
    (j : Nat) (c : clientstate_t) (h : cs.get? j = some c) :
    ∀ e ∈ (stepSlot rf rd (k + j) c).2, e ∈ (clientDispatch rf rd k cs).2 := by
  induction cs generalizing k j with
  | nil => simp at h
  | cons c0 cs ih =>
    intro e he
    show e ∈ (stepSlot rf rd k c0).2 ++ (clientDispatch rf rd (k + 1) cs).2
    cases j with
    | zero =>
      have hc : c0 = c := by simpa using h
      rw [hc]
      exact List.mem_append_left _ he
    | succ j' =>
      have h' : cs.get? j' = some c := by simpa using h
      have harith : k + 1 + j' = k + (j' + 1) := by omega
      refine List.mem_append_right _ (ih (k + 1) j' h' e ?_)
      rw [harith]
      exact he

theorem stepSlot_readIdx_cases (rf : Finset Int) (rd : Int → Int × List Nat)
    (j : Nat) (c : clientstate_t) :
    ((stepSlot rf rd j c).2).filterMap readIdx = [j] ∨
      ((stepSlot rf rd j c).2).filterMap readIdx = [] := by
  unfold stepSlot
  split
  · unfold dispatchSlot
    split <;> exact Or.inl (by simp [readIdx])
  · exact Or.inr rfl

theorem clientDispatch_readIdx_ge (rf : Finset Int)
    (rd : Int → Int × List Nat) (k : Nat) (cs : List clientstate_t) :
    ∀ x ∈ ((clientDispatch rf rd k cs).2).filterMap readIdx, k ≤ x := by
  induction cs generalizing k with
  | nil => simp [clientDispatch]
  | cons c cs ih =>
    intro x hx
    have hsplit : (clientDispatch rf rd k (c :: cs)).2 =
        (stepSlot rf rd k c).2 ++ (clientDispatch rf rd (k + 1) cs).2 := rfl
    rw [hsplit, List.filterMap_append] at hx
    rcases List.mem_append.mp hx with hx | hx
    · rcases stepSlot_readIdx_cases rf rd k c with hcase | hcase <;>
        rw [hcase] at hx
      · simp at hx
        omega
      · simp at hx
    · have := ih (k + 1) x hx
      omega

/-- the reads of one dispatch pass target strictly ascending slot
indices. -/
theorem clientDispatch_readIdx_sorted (rf : Finset Int)
    (rd : Int → Int × List Nat) (k : Nat) (cs : List clientstate_t) :
    (((clientDispatch rf rd k cs).2).filterMap readIdx).Pairwise
      (fun a b => a < b) := by
  induction cs generalizing k with
  | nil => simp [clientDispatch]
  | cons c cs ih =>
    have hsplit : (clientDispatch rf rd k (c :: cs)).2 =
        (stepSlot rf rd k c).2 ++ (clientDispatch rf rd (k + 1) cs).2 := rfl
    rw [hsplit, List.filterMap_append, List.pairwise_append]
    refine ⟨?_, ih (k + 1), ?_⟩
    · rcases stepSlot_readIdx_cases rf rd k c with h | h <;> rw [h] <;> simp
    · intro a ha b hb
      have hb' := clientDispatch_readIdx_ge rf rd (k + 1) cs b hb
      rcases stepSlot_readIdx_cases rf rd k c with h | h <;> rw [h] at ha
      · simp at ha
        omega
      · simp at ha

theorem stepSlot_dispatched (rf : Finset Int) (rd : Int → Int × List Nat)
    (i : Nat) (c : clientstate_t) (hfd : c.fd ≠ -1) (hready : c.fd ∈ rf) :
    stepSlot rf rd i c = dispatchSlot i c (rd c.fd) := by
  unfold stepSlot
  rw [if_pos ⟨hfd, hready⟩]

theorem dispatchSlot_read_mem (i : Nat) (c : clientstate_t)
    (r : Int × List Nat) :
    Event.read_call i c.fd ∈ (dispatchSlot i c r).2 := by
  unfold dispatchSlot
  split <;> simp

end SelectServer

open SelectServer in
/-- C1: over every schedule of connect and disconnect events processed
by the multiplexing loop, the number of slots with a non-empty
descriptor never exceeds MAX_CLIENTS; and when every slot is occupied,
an accepted connection is immediately closed, no slot of the table is
modified, and the occupied-slot count is unchanged. -/
theorem claim_C1_capacity (lfd : Int) (prev : Finset Int)
    (inputs : List IterInput) :
    occupiedCount (runLoop (initialState lfd) prev inputs).1.clientStates ≤
      MAX_CLIENTS ∧
    ∀ (cs : List clientstate_t) (conn_fd : Int), find_free_slot cs = -1 →
      listenerDispatch cs conn_fd =
        (cs, [Event.new_conn conn_fd, Event.server_full_close conn_fd]) ∧
      occupiedCount (listenerDispatch cs conn_fd).1 = occupiedCount cs := by
  constructor
  · have h1 := occupiedCount_le_length
      (runLoop (initialState lfd) prev inputs).1.clientStates
    have h2 := runLoop_length (initialState lfd) prev inputs
    have h3 : (initialState lfd).clientStates.length = MAX_CLIENTS := by
      simp [initialState, init_clients]
    omega
  · intro cs conn_fd hfull
    refine ⟨listenerDispatch_full cs conn_fd hfull, ?_⟩
    rw [listenerDispatch_full cs conn_fd hfull]

open SelectServer in
/-- witness for C1 at an empty schedule and a one-slot full table. -/
theorem claim_C1_capacity_witness :
    occupiedCount (runLoop (initialState 3) ∅ []).1.clientStates ≤ MAX_CLIENTS ∧
    (listenerDispatch [{ fd := 5, state := .STATE_CONNECTED, buffer := [] }] 9 =
       ([{ fd := 5, state := .STATE_CONNECTED, buffer := [] }],
        [Event.new_conn 9, Event.server_full_close 9]) ∧
     occupiedCount
         (listenerDispatch [{ fd := 5, state := .STATE_CONNECTED, buffer := [] }] 9).1 =
       occupiedCount [{ fd := 5, state := .STATE_CONNECTED, buffer := [] }]) :=
  ⟨(claim_C1_capacity 3 ∅ []).1,
   (claim_C1_capacity 3 ∅ []).2
     [{ fd := 5, state := .STATE_CONNECTED, buffer := [] }] 9 (by decide)⟩

open SelectServer in
/-- C3: the readiness query set is rebuilt from scratch each iteration
— its value is independent of the set left over from the previous
iteration — and holds exactly the listening descriptor plus the
descriptor of every slot whose fd is not the -1 sentinel; when the
listening descriptor is valid, the sentinel of empty slots is never a
member. -/
theorem claim_C3_query_set (prev prev2 : Finset Int) (lfd : Int)
    (cs : List clientstate_t) :
    buildReadFds prev lfd cs = buildReadFds prev2 lfd cs ∧
    (∀ d, d ∈ buildReadFds prev lfd cs ↔
       d = lfd ∨ ∃ c ∈ cs, c.fd ≠ -1 ∧ c.fd = d) ∧
    (lfd ≠ -1 → (-1 : Int) ∉ buildReadFds prev lfd cs) := by
  refine ⟨rfl, fun d => mem_buildReadFds prev lfd d cs, ?_⟩
  intro hlfd hmem
  rcases (mem_buildReadFds prev lfd (-1) cs).mp hmem with h | ⟨c, _, hne, hfd⟩
  · exact hlfd h.symm
  · exact hne hfd

open SelectServer in
/-- witness for C3 at a one-slot table and two different previous
sets. -/
theorem claim_C3_query_set_witness :
    buildReadFds ∅ 3 [{ fd := 7, state := .STATE_CONNECTED, buffer := [] }] =
      buildReadFds {99} 3 [{ fd := 7, state := .STATE_CONNECTED, buffer := [] }] ∧
    ((7 : Int) ∈ buildReadFds ∅ 3
        [{ fd := 7, state := .STATE_CONNECTED, buffer := [] }] ↔
      (7 : Int) = 3 ∨ ∃ c ∈ [({ fd := 7, state := .STATE_CONNECTED, buffer := [] } : clientstate_t)], c.fd ≠ -1 ∧ c.fd = 7) ∧
    (-1 : Int) ∉ buildReadFds ∅ 3
      [{ fd := 7, state := .STATE_CONNECTED, buffer := [] }] :=
  have h := claim_C3_query_set ∅ {99} 3
    [{ fd := 7, state := .STATE_CONNECTED, buffer := [] }]
  ⟨h.1, h.2.1 7, h.2.2 (by decide)⟩

open SelectServer in
/-- C9: the select server's setup exits non-zero with a report on a
socket, bind or listen failure, but the hello server's listen check
has an empty body, so a listen failure there is silently ignored and
the accept loop is entered anyway — the code diverges from the claim
on that path. -/
theorem claim_C9_setup :
    selectSetup { socketResult := -1, bindResult := 0, listenResult := 0 } =
      .fatal "socket" EXIT_FAILURE ∧
    selectSetup { socketResult := 3, bindResult := -1, listenResult := 0 } =
      .fatal "Bind" EXIT_FAILURE ∧
    selectSetup { socketResult := 3, bindResult := 0, listenResult := -1 } =
      .fatal "listen" EXIT_FAILURE ∧
    EXIT_FAILURE ≠ 0 ∧
    HelloServer.helloSetup { socketResult := 3, bindResult := 0, listenResult := -1 } =
      .enterLoop 3 := by
  refine ⟨rfl, rfl, rfl, by decide, rfl⟩

open HelloClient in
/-- C10: a connect failure makes the client report the error, close
its socket and exit 0, while a missing address argument or a socket
creation failure exits 255 (non-zero, from returning -1). -/
theorem claim_C10_client_exit (argc : Nat) (o : ClientOracle) :
    (2 ≤ argc → o.socketResult ≠ -1 → o.connectResult = -1 →
       client_main argc o =
         { exitStatus := 0, perrorMsg := some "connect", usageShown := false,
           closedFd := true, ranHandshake := false }) ∧
    (argc < 2 →
       client_main argc o =
         { exitStatus := 255, perrorMsg := none, usageShown := true,
           closedFd := false, ranHandshake := false }) ∧
    (2 ≤ argc → o.socketResult = -1 →
       client_main argc o =
         { exitStatus := 255, perrorMsg := some "socket", usageShown := false,
           closedFd := false, ranHandshake := false }) ∧
    (255 : Nat) ≠ 0 := by
  refine ⟨?_, ?_, ?_, by decide⟩
  · intro h1 h2 h3
    have h4 : ¬ argc < 2 := by omega
    simp [client_main, h4, h2, h3]
  · intro h
    simp [client_main, h]
  · intro h1 h2
    have h4 : ¬ argc < 2 := by omega
    simp [client_main, h4, h2]

open HelloClient in
/-- witness for C10 at concrete argc and oracle values for each of the
three paths. -/
theorem claim_C10_client_exit_witness :
    client_main 2 { socketResult := 3, connectResult := -1 } =
      { exitStatus := 0, perrorMsg := some "connect", usageShown := false,
        closedFd := true, ranHandshake := false } ∧
    client_main 1 { socketResult := 3, connectResult := 0 } =
      { exitStatus := 255, perrorMsg := none, usageShown := true,
        closedFd := false, ranHandshake := false } ∧
    client_main 2 { socketResult := -1, connectResult := 0 } =
      { exitStatus := 255, perrorMsg := some "socket", usageShown := false,
        closedFd := false, ranHandshake := false } :=
  ⟨(claim_C10_client_exit 2 ⟨3, -1⟩).1 (by decide) (by decide) (by decide),
   (claim_C10_client_exit 1 ⟨3, 0⟩).2.1 (by decide),
   (claim_C10_client_exit 2 ⟨-1, 0⟩).2.2.1 (by decide) (by decide)⟩

open SelectServer in
/-- a free slot appended after an all-occupied prefix is found by the
very next find_free_slot call, at its own index. -/
theorem find_free_slot_append_free (xs : List clientstate_t)
    (c0 : clientstate_t) (hxs : ∀ x ∈ xs, x.fd ≠ -1) (hc0 : c0.fd = -1) :
    find_free_slot (xs ++ [c0]) = xs.length := by
  induction xs with
  | nil => simp [find_free_slot, hc0]
  | cons x xs ih =>
    have hx : x.fd ≠ -1 := hxs x (by simp)
    have ih' := ih (fun y hy => hxs y (by simp [hy]))
    have hlen : ¬ ((xs.length : Int) = -1) := by omega
    show (if x.fd = -1 then (0 : Int) else
        if find_free_slot (xs ++ [c0]) = -1 then -1
        else find_free_slot (xs ++ [c0]) + 1) = ((x :: xs).length : Int)
    rw [if_neg hx, ih', if_neg hlen]
    push_cast [List.length_cons]
    ring

open SelectServer in
/-- C5 fails on the code as stated: the handshake frame is sent by the
hello server, not the client, and it is 12 bytes — two ABI padding
bytes sit between the 2-byte length field and the payload — not the
claimed 10-byte sequence; the client, the side that decodes and logs,
sends nothing at all. -/
theorem claim_C5_handshake_counterexample :
    HelloServer.handle_client_out = [0, 0, 0, 0, 0, 4, 0, 0, 0, 0, 0, 1] ∧
    HelloServer.handle_client_out ≠ [0, 0, 0, 0, 0, 4, 0, 0, 0, 1] ∧
    (HelloClient.handle_client [0, 0, 0, 0, 0, 4, 0, 0, 0, 0, 0, 1]).2 = [] := by
  refine ⟨by decide, by decide, by decide⟩

open SelectServer in
/-- C5 amended: the hello server sends one 12-byte frame — type 0 as 4
bytes and len 4 as 2 bytes, both network order, then 2 padding bytes,
then payload 1 as 4 bytes; the client decodes type=0, len=4, payload=1
and logs a successful v1 handshake; a frame carrying any other payload
value is logged as a version mismatch; in every case the decoding side
sends no response bytes. -/
theorem claim_C5_handshake (v : Nat) (hv : v < 2 ^ 32) (hv1 : v ≠ 1) :
    HelloServer.handle_client_out = [0, 0, 0, 0, 0, 4, 0, 0, 0, 0, 0, 1] ∧
    HelloServer.handle_client_out.length = 12 ∧
    HelloClient.decode HelloServer.handle_client_out = (0, 4, 1) ∧
    HelloClient.handle_client HelloServer.handle_client_out =
      (.connectedV1, []) ∧
    HelloClient.handle_client
        (Proto.htonl_bytes 0 ++ Proto.htons_bytes 4 ++ [0, 0] ++
          Proto.htonl_bytes v) =
      (.versionMismatch v, []) := by
  refine ⟨by decide, by decide, by decide, by decide, ?_⟩
  have hdec : HelloClient.decode
      (Proto.htonl_bytes 0 ++ Proto.htons_bytes 4 ++ [0, 0] ++
        Proto.htonl_bytes v) = (0, 4, v) := by
    simp only [HelloClient.decode, HelloClient.recvBuf, Proto.writeAt,
      Proto.htonl_bytes, Proto.htons_bytes, Proto.ntohl_at, Proto.ntohs_at,
      Proto.sizeof_proto_hdr]
    norm_num [List.getD]
    omega
  rw [HelloClient.handle_client, hdec]
  simp [Proto.PROTO_HELLO, hv1]

open SelectServer in
/-- witness for C5 at the concrete mismatching payload value 2. -/
theorem claim_C5_handshake_witness :
    HelloClient.handle_client
        (Proto.htonl_bytes 0 ++ Proto.htons_bytes 4 ++ [0, 0] ++
          Proto.htonl_bytes 2) =
      (.versionMismatch 2, []) :=
  (claim_C5_handshake 2 (by decide) (by decide)).2.2.2.2

open SelectServer in
/-- C6 fails on the code as stated: a released slot is not
indistinguishable from a never-used slot — its lifecycle state stays
STATE_DISCONNECTED where a fresh slot holds STATE_NEW, so the whole
record differs from initSlot even with an untouched buffer. -/
theorem claim_C6_reuse_counterexample :
    (dispatchSlot 0 { fd := 7, state := .STATE_CONNECTED, buffer := List.replicate BUFF_SIZE 0 } (0, [])).1.fd = -1 ∧
    (dispatchSlot 0 { fd := 7, state := .STATE_CONNECTED, buffer := List.replicate BUFF_SIZE 0 } (0, [])).1.state =
      state_e.STATE_DISCONNECTED ∧
    initSlot.state = state_e.STATE_NEW ∧
    (dispatchSlot 0 { fd := 7, state := .STATE_CONNECTED, buffer := List.replicate BUFF_SIZE 0 } (0, [])).1 ≠ initSlot := by
  refine ⟨by decide, by decide, by decide, ?_⟩
  intro h
  have hst := congrArg clientstate_t.state h
  simp [dispatchSlot, initSlot] at hst

open SelectServer in
/-- C6 amended: after a release the slot's descriptor is the -1 free
sentinel, so the very next find_free_slot call returns its index
whenever every earlier slot is occupied — for slot selection a closed
slot is treated exactly like a never-used one, since find_free_slot
inspects only fd; but the released slot is not equal to a freshly
initialised slot: its state field is STATE_DISCONNECTED instead of
STATE_NEW and its buffer keeps the previous contents rather than being
cleared. -/
theorem claim_C6_reuse (i : Nat) (c : clientstate_t) (r : Int × List Nat)
    (hr : r.1 ≤ 0) (xs : List clientstate_t) (hxs : ∀ x ∈ xs, x.fd ≠ -1) :
    (dispatchSlot i c r).1.fd = -1 ∧
    (dispatchSlot i c r).1.state = state_e.STATE_DISCONNECTED ∧
    (dispatchSlot i c r).1.buffer = c.buffer ∧
    find_free_slot (xs ++ [(dispatchSlot i c r).1]) = xs.length := by
  have hds : (dispatchSlot i c r).1 =
      { fd := -1, state := .STATE_DISCONNECTED, buffer := c.buffer } := by
    unfold dispatchSlot
    rw [if_pos hr]
  refine ⟨by rw [hds], by rw [hds], by rw [hds], ?_⟩
  exact find_free_slot_append_free xs _ hxs (by rw [hds])

open SelectServer in
/-- witness for C6: a released slot appended after one occupied slot
is picked up at index 1 by the next find_free_slot call. -/
theorem claim_C6_reuse_witness :
    (dispatchSlot 0 { fd := 7, state := .STATE_CONNECTED, buffer := [9] }
        (0, [])).1.fd = -1 ∧
    (dispatchSlot 0 { fd := 7, state := .STATE_CONNECTED, buffer := [9] }
        (0, [])).1.state = state_e.STATE_DISCONNECTED ∧
    (dispatchSlot 0 { fd := 7, state := .STATE_CONNECTED, buffer := [9] }
        (0, [])).1.buffer = [9] ∧
    find_free_slot ([{ fd := 5, state := .STATE_CONNECTED, buffer := [] }] ++
        [(dispatchSlot 0 { fd := 7, state := .STATE_CONNECTED, buffer := [9] }
          (0, [])).1]) = 1 :=
  claim_C6_reuse 0 { fd := 7, state := .STATE_CONNECTED, buffer := [9] }
    (0, []) (by decide) [{ fd := 5, state := .STATE_CONNECTED, buffer := [] }]
    (by decide)

open SelectServer in
/-- C7 fails on the code in its second half: buffers are not cleared
between occupancy generations.  Concretely, a first occupant of slot 0
reads bytes 65 66 67, the slot is released (buffer untouched), the
slot is reoccupied, and the new occupant sends the single byte 88; the
read overwrites only the first byte, and the handler prints 88 66 67 —
the old occupant's bytes leak into the data observed for the new
one. -/
theorem claim_C7_crosstalk_counterexample :
    (dispatchSlot 0
      { fd := 6, state := .STATE_CONNECTED,
        buffer := (dispatchSlot 0
          (dispatchSlot 0
            { fd := 5, state := .STATE_CONNECTED, buffer := List.replicate BUFF_SIZE 0 }
            (3, [65, 66, 67])).1
          (0, [])).1.buffer }
      (1, [88])).2 =
      [Event.read_call 0 6, Event.data_handled 0 [88, 66, 67]] := by
  decide

open SelectServer in
/-- C7 amended: a read dispatched to one slot writes only that slot's
own buffer — each table position after the dispatch loop depends only
on the slot that was there, and a slot that is empty or not ready is
returned unchanged — but the buffer is NOT cleared between occupancy
generations: a release keeps the old bytes, and a later shorter read
overwrites only as many bytes as it received, so residual bytes of the
previous occupant stay visible past the new data. -/
theorem claim_C7_crosstalk (rf : Finset Int) (rd : Int → Int × List Nat)
    (k : Nat) (cs : List clientstate_t) (j : Nat) (c : clientstate_t)
    (hj : cs.get? j = some c) :
    ((clientDispatch rf rd k cs).1.get? j =
       some (stepSlot rf rd (k + j) c).1) ∧
    (¬ (c.fd ≠ -1 ∧ c.fd ∈ rf) → (stepSlot rf rd (k + j) c).1 = c) ∧
    (∀ i r, r.1 ≤ 0 → (dispatchSlot i c r).1.buffer = c.buffer) ∧
    (∀ i r, 0 < r.1 →
       (dispatchSlot i c r).1.buffer =
         r.2.take BUFF_SIZE ++ c.buffer.drop (r.2.take BUFF_SIZE).length) := by
  refine ⟨?_, ?_, ?_, ?_⟩
  · rw [clientDispatch_get? rf rd k cs j, hj]
    rfl
  · intro hnot
    unfold stepSlot
    rw [if_neg hnot]
  · intro i r hr
    unfold dispatchSlot
    rw [if_pos hr]
  · intro i r hr
    unfold dispatchSlot
    rw [if_neg (by omega)]

open SelectServer in
/-- witness for C7: a two-slot table where only slot 1 is ready; slot
0 is returned unchanged and slot 1 keeps its tail bytes after a
one-byte read. -/
theorem claim_C7_crosstalk_witness :
    ((clientDispatch ({8} : Finset Int) (fun _ => (1, [88])) 0
        [{ fd := 5, state := .STATE_CONNECTED, buffer := [1, 2] },
         { fd := 8, state := .STATE_CONNECTED, buffer := [3, 4] }]).1.get? 0 =
      some (stepSlot ({8} : Finset Int) (fun _ => (1, [88])) 0
        { fd := 5, state := .STATE_CONNECTED, buffer := [1, 2] }).1) ∧
    (stepSlot ({8} : Finset Int) (fun _ => (1, [88])) 0
        { fd := 5, state := .STATE_CONNECTED, buffer := [1, 2] }).1 =
      { fd := 5, state := .STATE_CONNECTED, buffer := [1, 2] } ∧
    (dispatchSlot 1 { fd := 8, state := .STATE_CONNECTED, buffer := [3, 4] }
        (1, [88])).1.buffer =
      [88].take BUFF_SIZE ++
        ([3, 4] : List Nat).drop (([88] : List Nat).take BUFF_SIZE).length :=
  have h0 := claim_C7_crosstalk ({8} : Finset Int) (fun _ => (1, [88])) 0
    [{ fd := 5, state := .STATE_CONNECTED, buffer := [1, 2] },
     { fd := 8, state := .STATE_CONNECTED, buffer := [3, 4] }] 0
    { fd := 5, state := .STATE_CONNECTED, buffer := [1, 2] } (by decide)
  have h1 := claim_C7_crosstalk ({8} : Finset Int) (fun _ => (1, [88])) 0
    [{ fd := 5, state := .STATE_CONNECTED, buffer := [1, 2] },
     { fd := 8, state := .STATE_CONNECTED, buffer := [3, 4] }] 1
    { fd := 8, state := .STATE_CONNECTED, buffer := [3, 4] } (by decide)
  ⟨h0.1, h0.2.1 (by decide), h1.2.2.2 1 (1, [88]) (by decide)⟩

open SelectServer in
/-- in an iteration that does not take the accept-failure continue
path, an occupied slot ends up as its own stepSlot result and the
iteration trace holds exactly that step's reads for its index. -/
theorem iterate_slot_step (st : ServerState) (prev : Finset Int)
    (inp : IterInput) (i : Nat) (c : clientstate_t)
    (hget : st.clientStates.get? i = some c) (hfd : c.fd ≠ -1)
    (hnocont : st.listen_fd ∈ buildReadFds prev st.listen_fd st.clientStates ∩
        inp.ready → inp.acceptResult ≠ none) :
    (iterate st prev inp).1.clientStates.get? i =
      some (stepSlot (buildReadFds prev st.listen_fd st.clientStates ∩ inp.ready)
        inp.readData i c).1 ∧
    ((iterate st prev inp).2.2).countP (isReadCallAt i) =
      ((stepSlot (buildReadFds prev st.listen_fd st.clientStates ∩ inp.ready)
        inp.readData i c).2).countP (isReadCallAt i) := by
  by_cases hl : st.listen_fd ∈ buildReadFds prev st.listen_fd st.clientStates ∩ inp.ready
  · cases hacc : inp.acceptResult with
    | none => exact absurd hacc (hnocont hl)
    | some conn_fd =>
      rw [iterate_accept_some st prev inp conn_fd hl hacc]
      have hld : (listenerDispatch st.clientStates conn_fd).1.get? i = some c :=
        listenerDispatch_get?_nonempty st.clientStates conn_fd i c hget hfd
      dsimp only
      constructor
      · rw [clientDispatch_get?, hld]
        simp
      · rw [List.countP_cons, List.countP_append, listenerDispatch_readcount,
          clientDispatch_readcount, stepSlot_readcount]
        have hgetD : ((listenerDispatch st.clientStates conn_fd).1.getD (i - 0)
            initSlot) = c := by
          rw [Nat.sub_zero, List.getD_eq_getElem?_getD, ← List.get?_eq_getElem?, hld]
          rfl
        rw [hgetD]
        simp [isReadCallAt, hfd]
  · rw [iterate_no_listener st prev inp hl]
    dsimp only
    constructor
    · rw [clientDispatch_get?, hget]
      simp
    · rw [clientDispatch_readcount, stepSlot_readcount]
      have hgetD : (st.clientStates.getD (i - 0) initSlot) = c := by
        rw [Nat.sub_zero, List.getD_eq_getElem?_getD, ← List.get?_eq_getElem?, hget]
        rfl
      rw [hgetD]
      simp [hfd]

open SelectServer in
/-- C2 fails on the code in one corner: when the listener is reported
ready in the same wake and accept then fails, the continue statement
skips the entire client dispatch loop, so a non-empty slot whose
descriptor was reported ready gets no read at all in that
iteration. -/
theorem claim_C2_read_counterexample :
    (5 : Int) ∈ buildReadFds ∅ 3
        [{ fd := 5, state := .STATE_CONNECTED, buffer := [] }] ∩
        ({3, 5} : Finset Int) ∧
    (iterate
        { listen_fd := 3,
          clientStates := [{ fd := 5, state := .STATE_CONNECTED, buffer := [] }] } ∅
        { ready := {3, 5}, acceptResult := none,
          readData := fun _ => (1, [65]) }).2.2 = [Event.accept_called] := by
  refine ⟨by decide, by decide⟩

open SelectServer in
/-- C2 amended: provided the iteration does not take the
accept-failure continue path, every non-empty slot whose descriptor is
reported ready receives exactly one read; if the read returns 0 or a
negative value, the slot is freed in that same dispatch step (fd set
to -1, descriptor closed), the step emits no data-handler event, and
the freed slot contributes nothing to the next iteration's query set;
if the read returns a positive count the data handler is invoked and
the slot keeps its descriptor and state. -/
theorem claim_C2_read_dispatch (st : ServerState) (prev : Finset Int)
    (inp : IterInput) (i : Nat) (c : clientstate_t)
    (hget : st.clientStates.get? i = some c)
    (hfd : c.fd ≠ -1)
    (hready : c.fd ∈ buildReadFds prev st.listen_fd st.clientStates ∩ inp.ready)
    (hnocont : st.listen_fd ∈ buildReadFds prev st.listen_fd st.clientStates ∩
        inp.ready → inp.acceptResult ≠ none) :
    ((iterate st prev inp).2.2).countP (isReadCallAt i) = 1 ∧
    ((inp.readData c.fd).1 ≤ 0 →
       (iterate st prev inp).1.clientStates.get? i =
         some { fd := -1, state := .STATE_DISCONNECTED, buffer := c.buffer } ∧
       (stepSlot (buildReadFds prev st.listen_fd st.clientStates ∩ inp.ready)
           inp.readData i c).2 =
         [Event.read_call i c.fd, Event.client_closed i c.fd] ∧
       (∀ (prev2 : Finset Int) (d : Int),
          d ∈ buildReadFds prev2 st.listen_fd (iterate st prev inp).1.clientStates →
          d = st.listen_fd ∨ ∃ j c2, j ≠ i ∧
            (iterate st prev inp).1.clientStates.get? j = some c2 ∧
            c2.fd ≠ -1 ∧ c2.fd = d)) ∧
    (0 < (inp.readData c.fd).1 →
       (iterate st prev inp).1.clientStates.get? i =
         some { c with buffer :=
           (inp.readData c.fd).2.take BUFF_SIZE ++
             c.buffer.drop ((inp.readData c.fd).2.take BUFF_SIZE).length } ∧
       (stepSlot (buildReadFds prev st.listen_fd st.clientStates ∩ inp.ready)
           inp.readData i c).2 =
         [Event.read_call i c.fd,
          Event.data_handled i (cString ((inp.readData c.fd).2.take BUFF_SIZE ++
            c.buffer.drop ((inp.readData c.fd).2.take BUFF_SIZE).length))]) := by
  have hstep := iterate_slot_step st prev inp i c hget hfd hnocont
  have hdisp := stepSlot_dispatched
    (buildReadFds prev st.listen_fd st.clientStates ∩ inp.ready)
    inp.readData i c hfd hready
  refine ⟨?_, ?_, ?_⟩
  · rw [hstep.2, stepSlot_readcount]
    simp [hfd, hready]
  · intro hle
    have hbranch : dispatchSlot i c (inp.readData c.fd) =
        ({ fd := -1, state := .STATE_DISCONNECTED, buffer := c.buffer },
         [Event.read_call i c.fd, Event.client_closed i c.fd]) := by
      unfold dispatchSlot
      rw [if_pos hle]
    have hgoti : (iterate st prev inp).1.clientStates.get? i =
        some { fd := -1, state := .STATE_DISCONNECTED, buffer := c.buffer } := by
      rw [hstep.1, hdisp, hbranch]
    refine ⟨hgoti, by rw [hdisp, hbranch], ?_⟩
    intro prev2 d hd
    rcases (mem_buildReadFds prev2 st.listen_fd d
        (iterate st prev inp).1.clientStates).mp hd with h | ⟨c2, hc2mem, hc2fd, hc2d⟩
    · exact Or.inl h
    · obtain ⟨j, hj⟩ := List.mem_iff_get?.mp hc2mem
      refine Or.inr ⟨j, c2, ?_, hj, hc2fd, hc2d⟩
      intro hji
      rw [hji, hgoti] at hj
      have hc2eq : ({ fd := -1, state := .STATE_DISCONNECTED, buffer := c.buffer } : clientstate_t) = c2 :=
        Option.some.inj hj
      rw [← hc2eq] at hc2fd
      exact hc2fd rfl
  · intro hpos
    have hbranch : dispatchSlot i c (inp.readData c.fd) =
        ({ c with buffer :=
            (inp.readData c.fd).2.take BUFF_SIZE ++
              c.buffer.drop ((inp.readData c.fd).2.take BUFF_SIZE).length },
         [Event.read_call i c.fd,
          Event.data_handled i (cString ((inp.readData c.fd).2.take BUFF_SIZE ++
            c.buffer.drop ((inp.readData c.fd).2.take BUFF_SIZE).length))]) := by
      have hnle : ¬ ((inp.readData c.fd).1 ≤ 0) := by omega
      simp only [dispatchSlot, if_neg hnle]
    refine ⟨?_, by rw [hdisp, hbranch]⟩
    rw [hstep.1, hdisp, hbranch]

open SelectServer in
/-- witness for C2 at a one-slot table whose client closes (read
returns 0) while the listener is not ready. -/
theorem claim_C2_read_dispatch_witness :
    ((iterate
        { listen_fd := 3,
          clientStates := [{ fd := 5, state := .STATE_CONNECTED, buffer := [1, 2] }] } ∅
        { ready := {5}, acceptResult := some 9,
          readData := fun _ => (0, []) }).2.2).countP (isReadCallAt 0) = 1 ∧
    (iterate
        { listen_fd := 3,
          clientStates := [{ fd := 5, state := .STATE_CONNECTED, buffer := [1, 2] }] } ∅
        { ready := {5}, acceptResult := some 9,
          readData := fun _ => (0, []) }).1.clientStates.get? 0 =
      some { fd := -1, state := .STATE_DISCONNECTED, buffer := [1, 2] } :=
  have h := claim_C2_read_dispatch
    { listen_fd := 3,
      clientStates := [{ fd := 5, state := .STATE_CONNECTED, buffer := [1, 2] }] } ∅
    { ready := {5}, acceptResult := some 9, readData := fun _ => (0, []) }
    0 { fd := 5, state := .STATE_CONNECTED, buffer := [1, 2] }
    (by decide) (by decide) (by decide) (fun _ => by decide)
  ⟨h.1, (h.2.1 (by decide)).1⟩

open SelectServer in
/-- C4: within one iteration in which the blocking call reports the
listener and any number of client slots ready and accept succeeds, the
trace is the accept dispatch followed by the client dispatches: the
listener events carry no read, every non-empty ready slot's read
appears in the client part of the same iteration's trace, and the
reads target strictly ascending slot indices. -/
theorem claim_C4_ordering (st : ServerState) (prev : Finset Int)
    (inp : IterInput) (conn_fd : Int)
    (hl : st.listen_fd ∈ buildReadFds prev st.listen_fd st.clientStates ∩ inp.ready)
    (hacc : inp.acceptResult = some conn_fd) :
    ∃ levs cevs,
      (iterate st prev inp).2.2 = Event.accept_called :: levs ++ cevs ∧
      Event.new_conn conn_fd ∈ levs ∧
      (∀ i fd, Event.read_call i fd ∉ levs) ∧
      (∀ i c, st.clientStates.get? i = some c → c.fd ≠ -1 →
         c.fd ∈ buildReadFds prev st.listen_fd st.clientStates ∩ inp.ready →
         Event.read_call i c.fd ∈ cevs) ∧
      (cevs.filterMap readIdx).Pairwise (fun a b => a < b) := by
  refine ⟨(listenerDispatch st.clientStates conn_fd).2,
    (clientDispatch (buildReadFds prev st.listen_fd st.clientStates ∩ inp.ready)
      inp.readData 0 (listenerDispatch st.clientStates conn_fd).1).2,
    ?_, ?_, ?_, ?_, ?_⟩
  · rw [iterate_accept_some st prev inp conn_fd hl hacc]
    rfl
  · by_cases h : find_free_slot st.clientStates = -1
    · rw [listenerDispatch_full _ _ h]
      simp
    · rw [listenerDispatch_free _ _ h]
      simp
  · intro i fd hmem
    by_cases h : find_free_slot st.clientStates = -1
    · rw [listenerDispatch_full _ _ h] at hmem
      simp at hmem
    · rw [listenerDispatch_free _ _ h] at hmem
      simp at hmem
  · intro i c hget hfd hready
    have hld : (listenerDispatch st.clientStates conn_fd).1.get? i = some c :=
      listenerDispatch_get?_nonempty st.clientStates conn_fd i c hget hfd
    have hstep := stepSlot_dispatched
      (buildReadFds prev st.listen_fd st.clientStates ∩ inp.ready)
      inp.readData i c hfd hready
    have hmem := dispatchSlot_read_mem i c (inp.readData c.fd)
    rw [← hstep] at hmem
    exact clientDispatch_mem_of_block _ inp.readData 0 _ i c hld
      (Event.read_call i c.fd) (by simpa using hmem)
  · exact clientDispatch_readIdx_sorted _ _ _ _

open SelectServer in
/-- witness for C4 at a one-slot table with the listener and the slot
both ready and a successful accept. -/
theorem claim_C4_ordering_witness :
    ∃ levs cevs,
      (iterate
          { listen_fd := 3,
            clientStates := [{ fd := 5, state := .STATE_CONNECTED, buffer := [] }] } ∅
          { ready := {3, 5}, acceptResult := some 9,
            readData := fun _ => (1, [65]) }).2.2 =
        Event.accept_called :: levs ++ cevs ∧
      Event.new_conn 9 ∈ levs ∧
      (∀ i fd, Event.read_call i fd ∉ levs) ∧
      (∀ i c, ([{ fd := 5, state := .STATE_CONNECTED, buffer := [] }] : List clientstate_t).get? i = some c → c.fd ≠ -1 →
         c.fd ∈ buildReadFds ∅ 3
           [{ fd := 5, state := .STATE_CONNECTED, buffer := [] }] ∩
           ({3, 5} : Finset Int) →
         Event.read_call i c.fd ∈ cevs) ∧
      (cevs.filterMap readIdx).Pairwise (fun a b => a < b) :=
  claim_C4_ordering
    { listen_fd := 3,
      clientStates := [{ fd := 5, state := .STATE_CONNECTED, buffer := [] }] } ∅
    { ready := {3, 5}, acceptResult := some 9, readData := fun _ => (1, [65]) }
    9 (by decide) rfl

open SelectServer in
/-- C8: at most one accept per iteration; a successful accept stores
the connection in the first free slot (that slot is free and all
earlier slots are occupied); with no free slot the connection is
closed and the table untouched; a failed accept skips the listener
dispatch and the loop goes on with the next iteration instead of
terminating. -/
theorem claim_C8_accept_policy (st : ServerState) (prev : Finset Int)
    (inp : IterInput) :
    ((iterate st prev inp).2.2).countP isAcceptCall ≤ 1 ∧
    (∀ (cs : List clientstate_t) (conn_fd : Int), find_free_slot cs ≠ -1 →
       (listenerDispatch cs conn_fd).1 =
         modifyAt (find_free_slot cs).toNat
           (fun c => { c with fd := conn_fd, state := .STATE_CONNECTED }) cs ∧
       (∃ c, cs.get? (find_free_slot cs).toNat = some c ∧ c.fd = -1) ∧
       (∀ j, j < (find_free_slot cs).toNat →
          ∀ c', cs.get? j = some c' → c'.fd ≠ -1)) ∧
    (∀ (cs : List clientstate_t) (conn_fd : Int), find_free_slot cs = -1 →
       listenerDispatch cs conn_fd =
         (cs, [Event.new_conn conn_fd, Event.server_full_close conn_fd])) ∧
    (∀ rest : List IterInput,
       st.listen_fd ∈ buildReadFds prev st.listen_fd st.clientStates ∩ inp.ready →
       inp.acceptResult = none →
       iterate st prev inp =
         (st, buildReadFds prev st.listen_fd st.clientStates ∩ inp.ready,
          [Event.accept_called]) ∧
       runLoop st prev (inp :: rest) =
         runLoop st (buildReadFds prev st.listen_fd st.clientStates ∩ inp.ready)
           rest) := by
  refine ⟨?_, ?_, ?_, ?_⟩
  · by_cases hl : st.listen_fd ∈ buildReadFds prev st.listen_fd st.clientStates ∩ inp.ready
    · cases hacc : inp.acceptResult with
      | none =>
        rw [iterate_accept_none st prev inp hl hacc]
        simp [isAcceptCall]
      | some conn_fd =>
        rw [iterate_accept_some st prev inp conn_fd hl hacc]
        dsimp only
        rw [List.countP_cons, List.countP_append, listenerDispatch_acceptcount,
          clientDispatch_acceptcount]
        simp [isAcceptCall]
    · rw [iterate_no_listener st prev inp hl]
      dsimp only
      rw [clientDispatch_acceptcount]
      omega
  · intro cs conn_fd hfree
    obtain ⟨h0, hex, hbefore⟩ := find_free_slot_spec cs hfree
    refine ⟨?_, hex, hbefore⟩
    rw [listenerDispatch_free cs conn_fd hfree]
  · intro cs conn_fd hfull
    exact listenerDispatch_full cs conn_fd hfull
  · intro rest hl hacc
    have hiter := iterate_accept_none st prev inp hl hacc
    refine ⟨hiter, ?_⟩
    show runLoop (iterate st prev inp).1 (iterate st prev inp).2.1 rest = _
    rw [hiter]

open SelectServer in
/-- witness for C8: concrete instances of all four parts — an empty
table with listener ready and failed accept, a one-slot free table, and
a one-slot full table. -/
theorem claim_C8_accept_policy_witness :
    ((iterate { listen_fd := 3, clientStates := [] } ∅
        { ready := {3}, acceptResult := none,
          readData := fun _ => (0, []) }).2.2).countP isAcceptCall ≤ 1 ∧
    ((listenerDispatch [initSlot] 7).1 =
       modifyAt (find_free_slot [initSlot]).toNat
         (fun c => { c with fd := 7, state := .STATE_CONNECTED }) [initSlot] ∧
     (∃ c, ([initSlot] : List clientstate_t).get?
         (find_free_slot [initSlot]).toNat = some c ∧ c.fd = -1) ∧
     (∀ j, j < (find_free_slot [initSlot]).toNat →
        ∀ c', ([initSlot] : List clientstate_t).get? j = some c' →
          c'.fd ≠ -1)) ∧
    listenerDispatch [{ fd := 5, state := .STATE_CONNECTED, buffer := [] }] 9 =
      ([{ fd := 5, state := .STATE_CONNECTED, buffer := [] }],
       [Event.new_conn 9, Event.server_full_close 9]) ∧
    (iterate { listen_fd := 3, clientStates := [] } ∅
        { ready := {3}, acceptResult := none, readData := fun _ => (0, []) } =
      ({ listen_fd := 3, clientStates := [] },
       buildReadFds ∅ 3 [] ∩ ({3} : Finset Int), [Event.accept_called]) ∧
     runLoop { listen_fd := 3, clientStates := [] } ∅
        [{ ready := {3}, acceptResult := none, readData := fun _ => (0, []) }] =
       runLoop { listen_fd := 3, clientStates := [] }
         (buildReadFds ∅ 3 [] ∩ ({3} : Finset Int)) []) :=
  have h := claim_C8_accept_policy { listen_fd := 3, clientStates := [] } ∅
    { ready := {3}, acceptResult := none, readData := fun _ => (0, []) }
  ⟨h.1, h.2.1 [initSlot] 7 (by decide),
   h.2.2.1 [{ fd := 5, state := .STATE_CONNECTED, buffer := [] }] 9 (by decide),
   h.2.2.2 [] (by decide) rfl⟩
